import Mathlib

/-!
Verification of the detection query-language evaluation core
(`inference/core/workflows/core_steps/common/query_language/operations/detections/base.py`
and the SAM response conversion in
`inference/core/workflows/core_steps/models/foundation/segment_anything/v1.py`).

Python floats are modelled as rationals (`ℚ`): every arithmetic operation the
code performs on coordinates (adding integers and integer halves) is exact in
binary floating point, so the rational model coincides with the float
behaviour on all values considered here.  Python dictionaries are modelled as
association lists with insertion-order semantics; `copy.copy` of a dict yields
a distinct object with the same entries, which in this value-semantic
embedding is the identity on the entry list, with the distinctness reflected
by threading the local dictionary separately from the caller's mapping.
Fallible Python code (raised exceptions) is modelled with `Except`.
-/

set_option autoImplicit false

namespace Inference

/-- Bounding box row of `sv.Detections.xyxy`, one detection's
`(x_min, y_min, x_max, y_max)` coordinates. -/
structure BBox where
  x_min : ℚ
  y_min : ℚ
  x_max : ℚ
  y_max : ℚ
  deriving DecidableEq

/-- One detected object instance: one row of an `sv.Detections` collection
(`xyxy` row, `confidence` entry, `class_id` entry, and the `class_name`
auxiliary data column, which the data model guarantees present for every
element of a collection). -/
structure Detection where
  box : BBox
  confidence : ℚ
  class_id : ℤ
  class_name : String
  deriving DecidableEq

/-- Width of a bounding box. -/
def BBox.width (b : BBox) : ℚ := b.x_max - b.x_min

/-- Height of a bounding box. -/
def BBox.height (b : BBox) : ℚ := b.y_max - b.y_min

/-- `sv.Detections.box_area` for one detection: `(x_max - x_min) * (y_max - y_min)`. -/
def Detection.box_area (d : Detection) : ℚ := d.box.width * d.box.height

/-- Runtime values that flow through the query-language evaluation engine:
numbers, strings, sets of strings, image-like values (exposing pixel width
and height), a single bound detection, and a whole detection collection
(`sv.Detections`, modelled as the ordered list of its rows). -/
inductive Value where
  | num (q : ℚ)
  | str (s : String)
  | strSet (ss : List String)
  | image (width height : ℕ)
  | det (d : Detection)
  | detections (ds : List Detection)
  deriving DecidableEq

/-- Modelled from the spec: `safe_stringify` (in `operations/utils.py`, which is
not among the sources).  Per §4.1 it is a total string rendering of any value
that never throws; only totality matters to the claims. -/
def safe_stringify : Value → String
  | .num q => toString q.num ++ "/" ++ toString q.den
  | .str s => s
  | .strSet ss => toString ss
  | .image w h => "image " ++ toString w ++ "x" ++ toString h
  | .det _ => "Detection"
  | .detections ds => "Detections of length " ++ toString ds.length

/-- Rendering of Python's `type(value)` for the modelled value universe, as
interpolated into `InvalidInputTypeError` messages. -/
def observedType : Value → String
  | .num _ => "float"
  | .str _ => "str"
  | .strSet _ => "set"
  | .image _ _ => "WorkflowImageData"
  | .det _ => "Detection"
  | .detections _ => "sv.Detections"

/-- Errors raised by the evaluation core: `InvalidInputTypeError` (carrying the
safe rendering of the offending value, its observed type, and the context
string), a raw Python `KeyError` from a failed dictionary lookup, and
evaluation-time failures (`EvaluationEngineError` umbrella). -/
inductive QLError where
  | invalidInputType (valueRendering : String) (observedType : String) (context : String)
  | keyError (key : String)
  | evaluationError (message : String)
  deriving DecidableEq

/-- A Python dictionary `Dict[str, Any]` holding evaluation-context values,
modelled as an association list in insertion order. -/
abbrev Ctx := List (String × Value)

/-- Dictionary lookup `ctx[k]`, `none` when the key is absent. -/
def ctxLookup (k : String) : Ctx → Option Value
  | [] => none
  | (k₀, v₀) :: rest => if k₀ = k then some v₀ else ctxLookup k rest

/-- Dictionary assignment `ctx[k] = v`: overwrites in place when the key is
present (keeping its position, as Python dicts do), appends otherwise. -/
def ctxSet (k : String) (v : Value) : Ctx → Ctx
  | [] => [(k, v)]
  | (k₀, v₀) :: rest => if k₀ = k then (k, v) :: rest else (k₀, v₀) :: ctxSet k v rest

/-- `copy.copy` of a dictionary: a fresh dict object with the same entries.
On the level of values it is the identity; the freshness of the object is
reflected in the embedding by the copied dictionary being threaded as a
separate value from the caller's mapping. -/
def dictCopy (c : Ctx) : Ctx := c

/-- The `PROPERTIES_EXTRACTORS` registry of `base.py`: one extractor per
registered detections property, each returning one value per detection,
taken column-wise from the collection.  The keys are the string values of the
`DetectionsProperty` enum members used in the source (the enum module itself
is not among the sources). -/
def PROPERTIES_EXTRACTORS : List (String × (List Detection → List Value)) :=
  [ ("confidence", fun detections => detections.map (fun d => .num d.confidence)),
    ("class_name", fun detections => detections.map (fun d => .str d.class_name)),
    ("x_min", fun detections => detections.map (fun d => .num d.box.x_min)),
    ("y_min", fun detections => detections.map (fun d => .num d.box.y_min)),
    ("x_max", fun detections => detections.map (fun d => .num d.box.x_max)),
    ("y_max", fun detections => detections.map (fun d => .num d.box.y_max)),
    ("class_id", fun detections => detections.map (fun d => .num (d.class_id : ℚ))),
    ("size", fun detections => detections.map (fun d => .num d.box_area)) ]

/-- Registry lookup `PROPERTIES_EXTRACTORS[property_name]`: `none` models the
raw `KeyError` Python raises for an unregistered key. -/
def lookupExtractor (p : String) :
    List (String × (List Detection → List Value)) → Option (List Detection → List Value)
  | [] => none
  | (k, f) :: rest => if k = p then some f else lookupExtractor p rest

/-- `extract_detections_property` of `base.py`: reject non-`sv.Detections`
input with `InvalidInputTypeError`, then look the property up in the registry
(a raw `KeyError` when unregistered) and apply the extractor. -/
def extract_detections_property (detections : Value) (property_name : String)
    (execution_context : String) : Except QLError (List Value) :=
  match detections with
  | .detections ds =>
      match lookupExtractor property_name PROPERTIES_EXTRACTORS with
      | some extractor => .ok (extractor ds)
      | none => .error (.keyError property_name)
  | other =>
      .error (.invalidInputType (safe_stringify other) (observedType other)
        ("step_execution | roboflow_query_language_evaluation | " ++ execution_context))

/-- Modelled from the spec: the reserved operand name `DEFAULT_OPERAND_NAME`
(defined in `entities/operations.py`, not among the sources) under which the
detection currently under test is bound (§3, §4.6). -/
def DEFAULT_OPERAND_NAME : String := "_"

/-- The per-detection loop of `filter_detections`: for each detection in
order, assign it under the reserved operand name in the (reused) local
parameters dictionary, call the filtering function, and record the boolean.
Returns the recorded mask together with the final state of the local
dictionary.  A raised evaluation error aborts the whole loop. -/
def filterLoop (filtering_fun : Ctx → Except QLError Bool) :
    List Detection → Ctx → Except QLError (List Bool × Ctx)
  | [], local_parameters => .ok ([], local_parameters)
  | detection :: rest, local_parameters =>
      let withBinding := ctxSet DEFAULT_OPERAND_NAME (.det detection) local_parameters
      match filtering_fun withBinding with
      | .error e => .error e
      | .ok should_stay =>
          match filterLoop filtering_fun rest withBinding with
          | .error e => .error e
          | .ok (result, final) => .ok (should_stay :: result, final)

/-- Boolean-mask subsetting `detections[result]` of `sv.Detections`: keep, in
order, exactly the rows whose mask entry is `true`. -/
def maskSubset : List Detection → List Bool → List Detection
  | [], _ => []
  | _, [] => []
  | d :: ds, b :: bs => if b then d :: maskSubset ds bs else maskSubset ds bs

/-- `filter_detections` of `base.py`: reject non-`sv.Detections` input with
`InvalidInputTypeError`; otherwise copy the caller's global parameters once,
run the per-detection loop to build the boolean mask, and subset the source
collection by it. -/
def filter_detections (detections : Value)
    (filtering_fun : Ctx → Except QLError Bool)
    (global_parameters : Ctx) : Except QLError (List Detection) :=
  match detections with
  | .detections ds =>
      let local_parameters := dictCopy global_parameters
      match filterLoop filtering_fun ds local_parameters with
      | .error e => .error e
      | .ok (result, _) => .ok (maskSubset ds result)
  | other =>
      .error (.invalidInputType (safe_stringify other) (observedType other)
        "step_execution | roboflow_query_language_evaluation")

/-- Row-wise effect of `detections_copy.xyxy += [-offset_x / 2, -offset_y / 2,
offset_x / 2, offset_y / 2]` in `offset_detections`. -/
def offsetBox (b : BBox) (offset_x offset_y : ℚ) : BBox :=
  { x_min := b.x_min + (-offset_x / 2), y_min := b.y_min + (-offset_y / 2),
    x_max := b.x_max + offset_x / 2, y_max := b.y_max + offset_y / 2 }

/-- `offset_detections` of `base.py`: reject non-`sv.Detections` input with
`InvalidInputTypeError`; otherwise deep-copy the collection and add the
offset vector to every `xyxy` row.  All non-geometry data is carried over
unchanged by the deep copy. -/
def offset_detections (value : Value) (offset_x offset_y : ℚ) :
    Except QLError (List Detection) :=
  match value with
  | .detections ds =>
      .ok (ds.map (fun d => { d with box := offsetBox d.box offset_x offset_y }))
  | other =>
      .error (.invalidInputType (safe_stringify other) (observedType other)
        "step_execution | roboflow_query_language_evaluation")

/-- Row-wise effect of `detections_copy.xyxy += [shift_x, shift_y, shift_x,
shift_y]` in `shift_detections`. -/
def shiftBox (b : BBox) (shift_x shift_y : ℚ) : BBox :=
  { x_min := b.x_min + shift_x, y_min := b.y_min + shift_y,
    x_max := b.x_max + shift_x, y_max := b.y_max + shift_y }

/-- `shift_detections` of `base.py`: reject non-`sv.Detections` input with
`InvalidInputTypeError`; otherwise deep-copy the collection and translate
every `xyxy` row by the shift vector. -/
def shift_detections (value : Value) (shift_x shift_y : ℚ) :
    Except QLError (List Detection) :=
  match value with
  | .detections ds =>
      .ok (ds.map (fun d => { d with box := shiftBox d.box shift_x shift_y }))
  | other =>
      .error (.invalidInputType (safe_stringify other) (observedType other)
        "step_execution | roboflow_query_language_evaluation")

/-- Modelled from the spec: the tagged `Operation` variants of an operand's
pipeline (§3, §4.2) — detection-property extraction, image-property
extraction, and multiplication by a numeric factor.  The operations module is
not among the sources. -/
inductive Operation where
  | extractDetectionProperty (property_name : String)
  | extractImageProperty (property_name : String)
  | multiply (other : ℚ)

/-- Modelled from the spec: per-detection scalar extraction (§4.2: when
evaluating per detection, "an equivalent single-detection extraction is used
so the result is a scalar"), over the same registered property names as the
collection-level registry. -/
def extractSingleDetectionProperty (p : String) (d : Detection) : Except QLError Value :=
  if p = "confidence" then .ok (.num d.confidence)
  else if p = "class_name" then .ok (.str d.class_name)
  else if p = "x_min" then .ok (.num d.box.x_min)
  else if p = "y_min" then .ok (.num d.box.y_min)
  else if p = "x_max" then .ok (.num d.box.x_max)
  else if p = "y_max" then .ok (.num d.box.y_max)
  else if p = "class_id" then .ok (.num (d.class_id : ℚ))
  else if p = "size" then .ok (.num d.box_area)
  else .error (.keyError p)

/-- Modelled from the spec: application of one pipeline `Operation` to the
current value (§4.2); a value outside the operation's declared accepted type
is a typed failure, never a silent coercion. -/
def applyOperation : Operation → Value → Except QLError Value
  | .extractDetectionProperty p, .det d => extractSingleDetectionProperty p d
  | .extractDetectionProperty _, v =>
      .error (.invalidInputType (safe_stringify v) (observedType v) "extract_detection_property")
  | .extractImageProperty p, .image w h =>
      if p = "size" then .ok (.num ((w : ℚ) * (h : ℚ))) else .error (.keyError p)
  | .extractImageProperty _, v =>
      .error (.invalidInputType (safe_stringify v) (observedType v) "extract_image_property")
  | .multiply other, .num q => .ok (.num (q * other))
  | .multiply _, v =>
      .error (.invalidInputType (safe_stringify v) (observedType v) "multiply")

/-- Modelled from the spec: threading a value through the ordered operation
pipeline, output of stage i feeding stage i+1 (§4.2). -/
def applyOperations : List Operation → Value → Except QLError Value
  | [], v => .ok v
  | op :: rest, v =>
      match applyOperation op v with
      | .error e => .error e
      | .ok w => applyOperations rest w

/-- Modelled from the spec: an `Operand` (§3) — the context name its base
value is resolved from (the reserved operand name for the detection under
test), plus its ordered operation pipeline. -/
structure Operand where
  operand_name : String
  operations : List Operation

/-- Modelled from the spec: operand resolution (§4.3) — look the operand's
name up in the evaluation context, failing with an evaluation error (not a
silent default) when absent, then thread the base value through the
operation pipeline. -/
def resolveOperand (operand : Operand) (ctx : Ctx) : Except QLError Value :=
  match ctxLookup operand.operand_name ctx with
  | none => .error (.evaluationError ("operand " ++ operand.operand_name ++ " missing in evaluation context"))
  | some base => applyOperations operand.operations base

/-- Modelled from the spec: the comparator families of §4.4 — numeric
ordering and equality, sequence membership, and value equality of composite
values. -/
inductive Comparator where
  | numberLowerThan
  | numberLowerEqual
  | numberGreaterThan
  | numberGreaterEqual
  | inSequence
  | valueEqual

/-- Modelled from the spec: comparator application (§4.4).  Numeric
comparators require numeric operands, membership requires a collection on the
right, and value equality compares by value; anything else is a type error. -/
def applyComparator : Comparator → Value → Value → Except QLError Bool
  | .numberLowerThan, .num a, .num b => .ok (decide (a < b))
  | .numberLowerEqual, .num a, .num b => .ok (decide (a ≤ b))
  | .numberGreaterThan, .num a, .num b => .ok (decide (a > b))
  | .numberGreaterEqual, .num a, .num b => .ok (decide (a ≥ b))
  | .inSequence, .str s, .strSet ss => .ok (ss.contains s)
  | .valueEqual, a, b => .ok (decide (a = b))
  | _, a, _ =>
      .error (.invalidInputType (safe_stringify a) (observedType a) "comparator")

/-- Modelled from the spec: the two logical connectives of a
`StatementGroup` (§3, §4.5). -/
inductive LogicalOperator where
  | AND
  | OR

/-- Modelled from the spec: the boolean `Statement` tree (§3) — a
`BinaryStatement` leaf or a `StatementGroup` over an ordered list of child
statements, nested to arbitrary depth. -/
inductive Statement where
  | binary (left_operand : Operand) (comparator : Comparator) (right_operand : Operand)
  | group (operator : LogicalOperator) (statements : List Statement)

mutual

/-- Modelled from the spec: the recursive statement evaluator (§4.5).  A
binary statement resolves both operands and applies the comparator; a group
evaluates all children (no short-circuiting, which §4.5 permits) and combines
them with the AND/OR truth table. -/
def evalStatement : Statement → Ctx → Except QLError Bool
  | .binary left_operand comparator right_operand, ctx =>
      match resolveOperand left_operand ctx with
      | .error e => .error e
      | .ok lv =>
          match resolveOperand right_operand ctx with
          | .error e => .error e
          | .ok rv => applyComparator comparator lv rv
  | .group operator statements, ctx =>
      match evalStatements statements ctx with
      | .error e => .error e
      | .ok results =>
          match operator with
          | .AND => .ok (results.all id)
          | .OR => .ok (results.any id)

/-- Modelled from the spec: evaluation of a group's children in order, an
error in any child aborting the evaluation (§4.5, §7). -/
def evalStatements : List Statement → Ctx → Except QLError (List Bool)
  | [], _ => .ok []
  | s :: rest, ctx =>
      match evalStatement s ctx with
      | .error e => .error e
      | .ok b =>
          match evalStatements rest ctx with
          | .error e => .error e
          | .ok bs => .ok (b :: bs)

end

mutual

/-- Whether a statement tree references the given context name through some
operand. -/
def statementMentions (n : String) : Statement → Bool
  | .binary left_operand _ right_operand =>
      left_operand.operand_name = n ∨ right_operand.operand_name = n
  | .group _ statements => statementsMention n statements

/-- Whether any statement in the list references the given context name. -/
def statementsMention (n : String) : List Statement → Bool
  | [] => false
  | s :: rest => statementMentions n s || statementsMention n rest

end

/-- A point of a segmentation polygon, as produced by the SAM2 model
response. -/
structure Point where
  x : ℚ
  y : ℚ
  deriving DecidableEq

/-- One entry of the instance-segmentation response built by
`_convert_sam2_segmentation_response_to_inference_instances_seg_response`. -/
structure InstanceSegmentationPrediction where
  x : ℚ
  y : ℚ
  width : ℚ
  height : ℚ
  points : List Point
  confidence : ℚ
  class_name : String
  class_id : ℤ
  deriving DecidableEq

/-- Errors raised by the numpy reductions used in the SAM conversion. -/
inductive NumpyError where
  | valueError (message : String)
  deriving DecidableEq

/-- `np.min` over a coordinate list: raises `ValueError` on an empty
sequence, as numpy reductions without an identity do. -/
def npMin (xs : List ℚ) : Except NumpyError ℚ :=
  match xs with
  | [] => .error (.valueError "zero-size array to reduction operation minimum which has no identity")
  | x :: rest => .ok (rest.foldl min x)

/-- `np.max` over a coordinate list: raises `ValueError` on an empty
sequence, as numpy reductions without an identity do. -/
def npMax (xs : List ℚ) : Except NumpyError ℚ :=
  match xs with
  | [] => .error (.valueError "zero-size array to reduction operation maximum which has no identity")
  | x :: rest => .ok (rest.foldl max x)

/-- Per-polygon body of the loop in
`_convert_sam2_segmentation_response_to_inference_instances_seg_response`
(`segment_anything/v1.py`, lines 240-270): split the polygon into x and y
coordinate lists, reduce them with `np.min`/`np.max` (in the source order
`min_x, min_y, max_x, max_y`), and build the prediction from the derived
center, width, and height.  The hard-coded `0.5` confidence of the source is
carried over. -/
def convertPolygonToPrediction (polygon : List Point) (class_name : String)
    (class_id : ℤ) : Except NumpyError InstanceSegmentationPrediction :=
  let x_coords := polygon.map Point.x
  let y_coords := polygon.map Point.y
  match npMin x_coords with
  | .error e => .error e
  | .ok min_x =>
      match npMin y_coords with
      | .error e => .error e
      | .ok min_y =>
          match npMax x_coords with
          | .error e => .error e
          | .ok max_x =>
              match npMax y_coords with
              | .error e => .error e
              | .ok max_y =>
                  .ok { x := (min_x + max_x) / 2, y := (min_y + max_y) / 2,
                        width := max_x - min_x, height := max_y - min_y,
                        points := polygon, confidence := 1 / 2,
                        class_name := class_name, class_id := class_id }

/-- The evaluation of the compiled statement for one detection: the filtering
function applied to a copy of the caller's global parameters with the
detection bound under the reserved operand name.  This depends only on the
global parameters and the one detection, not on any other element. -/
def evalPred (f : Ctx → Except QLError Bool) (g : Ctx) (d : Detection) :
    Except QLError Bool :=
  f (ctxSet DEFAULT_OPERAND_NAME (.det d) (dictCopy g))

/-- The keep/drop decision for one detection when its evaluation succeeds
(`false` on an evaluation error, a case excluded wherever this is used). -/
def keepDecision (f : Ctx → Except QLError Bool) (g : Ctx) (d : Detection) : Bool :=
  match evalPred f g d with
  | .ok b => b
  | .error _ => false

/-- Element-wise specification of the boolean mask built by
`filter_detections`: each entry is the evaluation of the statement for that
detection alone, and an error at any element aborts the whole mask. -/
def maskSpec (f : Ctx → Except QLError Bool) (g : Ctx) :
    List Detection → Except QLError (List Bool)
  | [] => .ok []
  | d :: rest =>
      match evalPred f g d with
      | .error e => .error e
      | .ok b =>
          match maskSpec f g rest with
          | .error e => .error e
          | .ok bs => .ok (b :: bs)

theorem ctxSet_ctxSet_same (k : String) (v w : Value) (c : Ctx) :
    ctxSet k v (ctxSet k w c) = ctxSet k v c := by
  induction c with
  | nil => simp [ctxSet]
  | cons hd tl ih =>
      obtain ⟨k₀, v₀⟩ := hd
      by_cases h : k₀ = k
      · simp [ctxSet, h]
      · simp [ctxSet, h, ih]

theorem ctxLookup_ctxSet_self (k : String) (v : Value) (c : Ctx) :
    ctxLookup k (ctxSet k v c) = some v := by
  induction c with
  | nil => simp [ctxSet, ctxLookup]
  | cons hd tl ih =>
      obtain ⟨k₀, v₀⟩ := hd
      by_cases h : k₀ = k
      · simp [ctxSet, ctxLookup, h]
      · simp [ctxSet, ctxLookup, h, ih]

theorem ctxLookup_ctxSet_ne (k n : String) (v : Value) (c : Ctx) (h : n ≠ k) :
    ctxLookup n (ctxSet k v c) = ctxLookup n c := by
  have hkn : ¬k = n := fun hkn => h hkn.symm
  induction c with
  | nil => simp [ctxSet, ctxLookup, hkn]
  | cons hd tl ih =>
      obtain ⟨k₀, v₀⟩ := hd
      by_cases hk : k₀ = k
      · subst hk
        simp [ctxSet, ctxLookup, hkn]
      · simp [ctxSet, ctxLookup, hk, ih]

theorem filterLoop_mask_ctxSet (f : Ctx → Except QLError Bool) (g : Ctx)
    (ds : List Detection) (v : Value) :
    Except.map Prod.fst (filterLoop f ds (ctxSet DEFAULT_OPERAND_NAME v g)) =
      maskSpec f g ds := by
  induction ds generalizing v with
  | nil => simp [filterLoop, maskSpec, Except.map]
  | cons d rest ih =>
      have hctx :
          ctxSet DEFAULT_OPERAND_NAME (Value.det d) (ctxSet DEFAULT_OPERAND_NAME v g) =
            ctxSet DEFAULT_OPERAND_NAME (Value.det d) g :=
        ctxSet_ctxSet_same _ _ _ _
      cases hf : f (ctxSet DEFAULT_OPERAND_NAME (Value.det d) g) with
      | error e =>
          simp [filterLoop, hctx, maskSpec, evalPred, dictCopy, hf, Except.map]
      | ok b =>
          have hrec := ih (Value.det d)
          simp only [filterLoop, hctx, maskSpec, evalPred, dictCopy, hf]
          cases hl : filterLoop f rest (ctxSet DEFAULT_OPERAND_NAME (Value.det d) g) with
          | error e =>
              rw [hl] at hrec
              simp only [Except.map] at hrec
              simp [Except.map, ← hrec]
          | ok pr =>
              obtain ⟨mask, final⟩ := pr
              rw [hl] at hrec
              simp only [Except.map] at hrec
              simp [Except.map, ← hrec]

theorem filter_detections_eq_maskSpec (f : Ctx → Except QLError Bool) (g : Ctx)
    (ds : List Detection) :
    filter_detections (.detections ds) f g =
      match maskSpec f g ds with
      | .error e => .error e
      | .ok mask => .ok (maskSubset ds mask) := by
  cases ds with
  | nil => simp [filter_detections, filterLoop, maskSpec, maskSubset, dictCopy]
  | cons d rest =>
      cases hf : f (ctxSet DEFAULT_OPERAND_NAME (Value.det d) g) with
      | error e =>
          simp [filter_detections, filterLoop, maskSpec, evalPred, dictCopy, hf]
      | ok b =>
          have hrec := filterLoop_mask_ctxSet f g rest (Value.det d)
          simp only [filter_detections, filterLoop, maskSpec, evalPred, dictCopy, hf]
          cases hl : filterLoop f rest (ctxSet DEFAULT_OPERAND_NAME (Value.det d) g) with
          | error e =>
              rw [hl] at hrec
              simp only [Except.map] at hrec
              simp [Except.map, ← hrec]
          | ok pr =>
              obtain ⟨mask, final⟩ := pr
              rw [hl] at hrec
              simp only [Except.map] at hrec
              simp [Except.map, ← hrec]

theorem maskSpec_of_total (f : Ctx → Except QLError Bool) (g : Ctx)
    (ds : List Detection) (h : ∀ d ∈ ds, ∃ b, evalPred f g d = .ok b) :
    maskSpec f g ds = .ok (ds.map (keepDecision f g)) := by
  induction ds with
  | nil => simp [maskSpec]
  | cons d rest ih =>
      obtain ⟨b, hb⟩ := h d (by simp)
      have hrest := ih (fun d₀ hd₀ => h d₀ (by simp [hd₀]))
      simp [maskSpec, hb, hrest, keepDecision]

theorem maskSubset_map (p : Detection → Bool) (ds : List Detection) :
    maskSubset ds (ds.map p) = ds.filter p := by
  induction ds with
  | nil => rfl
  | cons d rest ih => by_cases h : p d <;> simp [maskSubset, List.filter_cons, h, ih]

theorem maskSpec_error_of_mem (f : Ctx → Except QLError Bool) (g : Ctx)
    (ds : List Detection) (d : Detection) (hd : d ∈ ds) (e : QLError)
    (he : evalPred f g d = .error e) :
    ∃ e₀, maskSpec f g ds = .error e₀ := by
  induction ds with
  | nil => cases hd
  | cons d₁ rest ih =>
      rcases List.mem_cons.mp hd with h | h
      · subst h
        exact ⟨e, by simp [maskSpec, he]⟩
      · cases hf : evalPred f g d₁ with
        | error e₁ => exact ⟨e₁, by simp [maskSpec, hf]⟩
        | ok b =>
            obtain ⟨e₀, he₀⟩ := ih h
            exact ⟨e₀, by simp [maskSpec, hf, he₀]⟩

mutual

theorem evalStatement_missing_name (n : String) (s : Statement) (ctx : Ctx)
    (h₁ : statementMentions n s = true) (h₂ : ctxLookup n ctx = none) :
    ∃ e, evalStatement s ctx = .error e :=
  match s with
  | .binary left_operand comparator right_operand => by
      simp only [statementMentions, decide_eq_true_eq] at h₁
      rcases h₁ with h | h
      · refine ⟨.evaluationError ("operand " ++ left_operand.operand_name ++ " missing in evaluation context"), ?_⟩
        simp [evalStatement, resolveOperand, h, h₂]
      · cases hl : resolveOperand left_operand ctx with
        | error e => exact ⟨e, by simp [evalStatement, hl]⟩
        | ok lv =>
            refine ⟨.evaluationError ("operand " ++ right_operand.operand_name ++ " missing in evaluation context"), ?_⟩
            simp only [evalStatement, hl]
            simp [resolveOperand, h, h₂]
  | .group operator statements => by
      simp only [statementMentions] at h₁
      obtain ⟨e, he⟩ := evalStatements_missing_name n statements ctx h₁ h₂
      exact ⟨e, by simp [evalStatement, he]⟩

theorem evalStatements_missing_name (n : String) (ss : List Statement) (ctx : Ctx)
    (h₁ : statementsMention n ss = true) (h₂ : ctxLookup n ctx = none) :
    ∃ e, evalStatements ss ctx = .error e :=
  match ss with
  | [] => by simp [statementsMention] at h₁
  | s :: rest => by
      simp only [statementsMention, Bool.or_eq_true] at h₁
      rcases h₁ with h | h
      · obtain ⟨e, he⟩ := evalStatement_missing_name n s ctx h h₂
        exact ⟨e, by simp [evalStatements, he]⟩
      · cases hs : evalStatement s ctx with
        | error e => exact ⟨e, by simp [evalStatements, hs]⟩
        | ok b =>
            obtain ⟨e, he⟩ := evalStatements_missing_name n rest ctx h h₂
            exact ⟨e, by simp [evalStatements, hs, he]⟩

end

/-- Decidable equality of fallible results, used to evaluate the embedded
functions at concrete inputs. -/
instance exceptDecidableEq {ε α : Type} [DecidableEq ε] [DecidableEq α] :
    DecidableEq (Except ε α) := fun x y =>
  match x, y with
  | .ok a, .ok b =>
      if h : a = b then .isTrue (by rw [h]) else .isFalse (by intro hc; cases hc; exact h rfl)
  | .error e, .error f =>
      if h : e = f then .isTrue (by rw [h]) else .isFalse (by intro hc; cases hc; exact h rfl)
  | .ok _, .error _ => .isFalse (fun hc => Except.noConfusion hc)
  | .error _, .ok _ => .isFalse (fun hc => Except.noConfusion hc)

/-- Concrete detection used in witnesses: a confident person box. -/
def personDetection : Detection :=
  { box := { x_min := 100, y_min := 100, x_max := 200, y_max := 200 },
    confidence := mkRat 9 10, class_id := 0, class_name := "person" }

/-- Concrete detection used in witnesses: a low-confidence car box. -/
def carDetection : Detection :=
  { box := { x_min := 10, y_min := 10, x_max := 15, y_max := 20 },
    confidence := mkRat 3 10, class_id := 2, class_name := "car" }

/-- Concrete global parameter mapping used in witnesses. -/
def demoGlobals : Ctx :=
  [("classes", .strSet ["person"]), ("image", .image 1000 100)]

/-- Concrete filtering function used in witnesses: keep the bound detection
when its confidence is at least one half, raising an evaluation error when no
detection is bound under the reserved operand name. -/
def confidenceAtLeastHalf : Ctx → Except QLError Bool := fun ctx =>
  match ctxLookup DEFAULT_OPERAND_NAME ctx with
  | some (.det d) => .ok (decide (mkRat 1 2 ≤ d.confidence))
  | _ => .error (.evaluationError "no detection bound under the reserved operand name")

/-- C1: for every detection collection, compiled statement, and global
context, `filter_detections` returns the sub-collection of exactly those
elements for which the statement evaluates true with that element bound under
the reserved operand name (here under the hypothesis that every element
evaluates without error, which the claim presupposes by speaking of the
returned collection); the result is a filter of the input, its length is at
most the input length, the survivors keep their relative order (sublist), and
every survivor satisfies the statement. -/
theorem filter_detections_correct (ds : List Detection)
    (f : Ctx → Except QLError Bool) (g : Ctx)
    (h : ∀ d ∈ ds, ∃ b, evalPred f g d = .ok b) :
    ∃ out, filter_detections (.detections ds) f g = .ok out ∧
      out = List.filter (keepDecision f g) ds ∧
      out.length ≤ ds.length ∧
      out.Sublist ds ∧
      ∀ d ∈ out, evalPred f g d = .ok true := by
  refine ⟨List.filter (keepDecision f g) ds, ?_, rfl, ?_, ?_, ?_⟩
  · rw [filter_detections_eq_maskSpec, maskSpec_of_total f g ds h]
    show Except.ok (maskSubset ds (List.map (keepDecision f g) ds)) = _
    rw [maskSubset_map]
  · exact List.length_filter_le _ _
  · exact List.filter_sublist ds
  · intro d hd
    have hk : keepDecision f g d = true := List.of_mem_filter hd
    obtain ⟨b, hb⟩ := h d (List.mem_of_mem_filter hd)
    have hkb : keepDecision f g d = b := by simp [keepDecision, hb]
    rw [hkb] at hk
    rw [hb, hk]

/-- Witness for C1: the concrete two-element collection keeps exactly the
high-confidence detection. -/
theorem filter_detections_correct_witness :
    ∃ out, filter_detections (.detections [personDetection, carDetection])
        confidenceAtLeastHalf demoGlobals = .ok out ∧
      out = List.filter (keepDecision confidenceAtLeastHalf demoGlobals)
        [personDetection, carDetection] ∧
      out.length ≤ [personDetection, carDetection].length ∧
      out.Sublist [personDetection, carDetection] ∧
      ∀ d ∈ out, evalPred confidenceAtLeastHalf demoGlobals d = .ok true :=
  filter_detections_correct [personDetection, carDetection]
    confidenceAtLeastHalf demoGlobals (by decide)

/-- C2: during `filter_detections`, the result is determined element-wise —
the decision recorded for each detection is the filtering function applied to
a copy of the caller's global context with exactly that detection bound under
the reserved operand name (`maskSpec`), so one element's reserved binding
never leaks into another element's evaluation even though the source reuses
one local dictionary; the bound context agrees with the caller's mapping on
every other key and holds the detection under the reserved name.  The
caller's mapping itself and the source collection are values the call only
reads (the source copies the dictionary on line 61 before any write and
subsets the collection without writing to it), which the embedding reflects
by never returning a modified version of either. -/
theorem filter_detections_frame (ds : List Detection)
    (f : Ctx → Except QLError Bool) (g : Ctx) (k : String)
    (hk : k ≠ DEFAULT_OPERAND_NAME) (d : Detection) :
    filter_detections (.detections ds) f g =
      (match maskSpec f g ds with
       | .error e => .error e
       | .ok mask => .ok (maskSubset ds mask)) ∧
    ctxLookup k (ctxSet DEFAULT_OPERAND_NAME (.det d) (dictCopy g)) = ctxLookup k g ∧
    ctxLookup DEFAULT_OPERAND_NAME (ctxSet DEFAULT_OPERAND_NAME (.det d) (dictCopy g)) =
      some (.det d) :=
  ⟨filter_detections_eq_maskSpec f g ds,
    ctxLookup_ctxSet_ne _ _ _ _ hk,
    ctxLookup_ctxSet_self _ _ _⟩

/-- Witness for C2 at a concrete collection, context, and non-reserved key. -/
theorem filter_detections_frame_witness :
    filter_detections (.detections [personDetection, carDetection])
        confidenceAtLeastHalf demoGlobals =
      (match maskSpec confidenceAtLeastHalf demoGlobals [personDetection, carDetection] with
       | .error e => .error e
       | .ok mask => .ok (maskSubset [personDetection, carDetection] mask)) ∧
    ctxLookup "classes"
        (ctxSet DEFAULT_OPERAND_NAME (.det carDetection) (dictCopy demoGlobals)) =
      ctxLookup "classes" demoGlobals ∧
    ctxLookup DEFAULT_OPERAND_NAME
        (ctxSet DEFAULT_OPERAND_NAME (.det carDetection) (dictCopy demoGlobals)) =
      some (.det carDetection) :=
  filter_detections_frame [personDetection, carDetection] confidenceAtLeastHalf
    demoGlobals "classes" (by decide) carDetection

/-- C3: every one of the four entry points — detection filter, offset
transform, shift transform, and detection-property extraction — rejects a
non-collection argument with `InvalidInputTypeError` carrying the safe string
rendering of the value and its observed type; the error is the whole result,
so no element is processed and no partial output exists. -/
theorem non_collection_input_rejected (v : Value)
    (hv : ∀ ds, v ≠ Value.detections ds)
    (f : Ctx → Except QLError Bool) (g : Ctx)
    (offset_x offset_y shift_x shift_y : ℚ)
    (property_name execution_context : String) :
    filter_detections v f g =
      .error (.invalidInputType (safe_stringify v) (observedType v)
        "step_execution | roboflow_query_language_evaluation") ∧
    offset_detections v offset_x offset_y =
      .error (.invalidInputType (safe_stringify v) (observedType v)
        "step_execution | roboflow_query_language_evaluation") ∧
    shift_detections v shift_x shift_y =
      .error (.invalidInputType (safe_stringify v) (observedType v)
        "step_execution | roboflow_query_language_evaluation") ∧
    extract_detections_property v property_name execution_context =
      .error (.invalidInputType (safe_stringify v) (observedType v)
        ("step_execution | roboflow_query_language_evaluation | " ++ execution_context)) := by
  cases v with
  | detections ds => exact absurd rfl (hv ds)
  | num q => exact ⟨rfl, rfl, rfl, rfl⟩
  | str s => exact ⟨rfl, rfl, rfl, rfl⟩
  | strSet ss => exact ⟨rfl, rfl, rfl, rfl⟩
  | image w h => exact ⟨rfl, rfl, rfl, rfl⟩
  | det d => exact ⟨rfl, rfl, rfl, rfl⟩

/-- Witness for C3 at the plain number 5. -/
theorem non_collection_input_rejected_witness :
    filter_detections (.num 5) confidenceAtLeastHalf demoGlobals =
      .error (.invalidInputType (safe_stringify (.num 5)) (observedType (.num 5))
        "step_execution | roboflow_query_language_evaluation") ∧
    offset_detections (.num 5) 10 20 =
      .error (.invalidInputType (safe_stringify (.num 5)) (observedType (.num 5))
        "step_execution | roboflow_query_language_evaluation") ∧
    shift_detections (.num 5) 10 20 =
      .error (.invalidInputType (safe_stringify (.num 5)) (observedType (.num 5))
        "step_execution | roboflow_query_language_evaluation") ∧
    extract_detections_property (.num 5) "confidence" "demo" =
      .error (.invalidInputType (safe_stringify (.num 5)) (observedType (.num 5))
        ("step_execution | roboflow_query_language_evaluation | " ++ "demo")) :=
  non_collection_input_rejected (.num 5)
    (fun _ h => Value.noConfusion h)
    confidenceAtLeastHalf demoGlobals 10 20 10 20 "confidence" "demo"

theorem offsetBox_eq (b : BBox) (ox oy : ℚ) :
    offsetBox b ox oy =
      { x_min := b.x_min - ox / 2, y_min := b.y_min - oy / 2,
        x_max := b.x_max + ox / 2, y_max := b.y_max + oy / 2 } := by
  unfold offsetBox
  congr 1 <;> ring

/-- C4: `offset_detections` transforms every bounding box uniformly by
`x_min -= offset_x/2, x_max += offset_x/2, y_min -= offset_y/2,
y_max += offset_y/2`, leaving every non-geometry field of every detection
unchanged; in particular offsetting by `(10, 20)` turns the box
`(100,100,200,200)` into `(95,90,205,210)`.  The call works on a deep copy
(line 80 of the source), so in this value-semantic embedding the argument —
all of its nested data included — is untouched, which the pure result type
reflects. -/
theorem offset_detections_spec (ds : List Detection) (offset_x offset_y : ℚ) :
    offset_detections (.detections ds) offset_x offset_y =
      .ok (ds.map (fun d =>
        { d with box :=
            { x_min := d.box.x_min - offset_x / 2,
              y_min := d.box.y_min - offset_y / 2,
              x_max := d.box.x_max + offset_x / 2,
              y_max := d.box.y_max + offset_y / 2 } })) ∧
    (ds.map (fun d =>
        { d with box :=
            { x_min := d.box.x_min - offset_x / 2,
              y_min := d.box.y_min - offset_y / 2,
              x_max := d.box.x_max + offset_x / 2,
              y_max := d.box.y_max + offset_y / 2 } : Detection })).length = ds.length ∧
    offset_detections (.detections [personDetection]) 10 20 =
      .ok [{ personDetection with
              box := { x_min := 95, y_min := 90, x_max := 205, y_max := 210 } }] := by
  refine ⟨?_, List.length_map _ _, ?_⟩
  · simp only [offset_detections, offsetBox_eq]
  · simp only [offset_detections, List.map_cons, List.map_nil, offsetBox_eq, personDetection]
    norm_num

/-- C5: shifting translates every box by `(dx, dy)` with width and height
unchanged, and shifting back by `(-dx, -dy)` reproduces the original
collection exactly (the rational model is exact, matching the claim's
floating-point tolerance). -/
theorem shift_detections_round_trip (ds : List Detection) (shift_x shift_y : ℚ) :
    ∃ out, shift_detections (.detections ds) shift_x shift_y = .ok out ∧
      shift_detections (.detections out) (-shift_x) (-shift_y) = .ok ds ∧
      out.length = ds.length ∧
      out.map (fun d => d.box.width) = ds.map (fun d => d.box.width) ∧
      out.map (fun d => d.box.height) = ds.map (fun d => d.box.height) ∧
      out.map (fun d => d.box.x_min) = ds.map (fun d => d.box.x_min + shift_x) ∧
      out.map (fun d => d.box.y_min) = ds.map (fun d => d.box.y_min + shift_y) := by
  refine ⟨ds.map (fun d => { d with box := shiftBox d.box shift_x shift_y }), ?_, ?_, List.length_map _ _, ?_, ?_, ?_, ?_⟩
  · rfl
  · simp only [shift_detections, List.map_map]
    congr 1
    refine List.map_congr_left ?_ |>.trans (List.map_id _)
    intro d _
    simp only [Function.comp_apply, shiftBox]
    congr 1
    congr 1 <;> ring
  · simp only [List.map_map]
    exact List.map_congr_left (fun d _ => by simp [Function.comp_apply, shiftBox, BBox.width])
  · simp only [List.map_map]
    exact List.map_congr_left (fun d _ => by simp [Function.comp_apply, shiftBox, BBox.height])
  · simp only [List.map_map]
    exact List.map_congr_left (fun d _ => by simp [Function.comp_apply, shiftBox])
  · simp only [List.map_map]
    exact List.map_congr_left (fun d _ => by simp [Function.comp_apply, shiftBox])

/-- A thin detection used to exhibit the violated box invariant after a large
negative offset. -/
def thinDetection : Detection :=
  { box := { x_min := 0, y_min := 0, x_max := 4, y_max := 4 },
    confidence := 1, class_id := 0, class_name := "person" }

/-- C9: the transforms apply their coordinate arithmetic unconditionally,
with no clamping or re-validation: offsetting a width-4 box by
`offset_x = -10` produces a box with `x_min = 5 > x_max = -1`, and shifting a
collection that already violates the invariant keeps it violated — neither
operation re-establishes `x_min ≤ x_max`. -/
theorem offset_detections_breaks_box_invariant :
    (∃ d : Detection, offset_detections (.detections [thinDetection]) (-10) 0 = .ok [d] ∧
      d.box.x_max < d.box.x_min) ∧
    (∃ d : Detection,
      shift_detections (.detections [{ thinDetection with
          box := { x_min := 5, y_min := 0, x_max := -1, y_max := 4 } }]) 3 3 = .ok [d] ∧
      d.box.x_max < d.box.x_min) := by
  constructor
  · refine ⟨{ thinDetection with box := { x_min := 5, y_min := 0, x_max := -1, y_max := 4 } }, ?_, by norm_num⟩
    simp only [offset_detections, List.map_cons, List.map_nil, offsetBox, thinDetection]
    norm_num
  · refine ⟨{ thinDetection with box := { x_min := 8, y_min := 3, x_max := 2, y_max := 7 } }, ?_, by norm_num⟩
    simp only [shift_detections, List.map_cons, List.map_nil, shiftBox, thinDetection]
    norm_num

/-- The boolean a child statement contributes when its evaluation succeeds
(`false` on an evaluation error, a case excluded wherever this is used). -/
def stmtDecision (ctx : Ctx) (s : Statement) : Bool :=
  match evalStatement s ctx with
  | .ok b => b
  | .error _ => false

theorem evalStatements_of_total (ss : List Statement) (ctx : Ctx)
    (h : ∀ s ∈ ss, ∃ b, evalStatement s ctx = .ok b) :
    evalStatements ss ctx = .ok (ss.map (stmtDecision ctx)) := by
  induction ss with
  | nil => simp [evalStatements]
  | cons s rest ih =>
      obtain ⟨b, hb⟩ := h s (by simp)
      have hrest := ih (fun t ht => h t (by simp [ht]))
      simp [evalStatements, hb, hrest, stmtDecision]

/-- C6: a `StatementGroup` with operator AND and an empty child list evaluates
true and one with operator OR and an empty child list evaluates false, for
every evaluation context; and for any number of children whose evaluation
succeeds, AND is true iff every child evaluates true and OR is true iff at
least one child evaluates true. -/
theorem statement_group_truth_table (ctx : Ctx) (children : List Statement)
    (h : ∀ s ∈ children, ∃ b, evalStatement s ctx = .ok b) :
    evalStatement (.group .AND []) ctx = .ok true ∧
    evalStatement (.group .OR []) ctx = .ok false ∧
    (evalStatement (.group .AND children) ctx = .ok true ↔
      ∀ s ∈ children, evalStatement s ctx = .ok true) ∧
    (evalStatement (.group .OR children) ctx = .ok true ↔
      ∃ s ∈ children, evalStatement s ctx = .ok true) := by
  have hAND : evalStatement (.group .AND children) ctx =
      .ok ((children.map (stmtDecision ctx)).all id) := by
    simp [evalStatement, evalStatements_of_total children ctx h]
  have hOR : evalStatement (.group .OR children) ctx =
      .ok ((children.map (stmtDecision ctx)).any id) := by
    simp [evalStatement, evalStatements_of_total children ctx h]
  have all_map_id : ∀ (l : List Statement) (f : Statement → Bool),
      (l.map f).all id = l.all f := by
    intro l f
    induction l with
    | nil => rfl
    | cons s rest ih => simp [List.all_cons, ih]
  have any_map_id : ∀ (l : List Statement) (f : Statement → Bool),
      (l.map f).any id = l.any f := by
    intro l f
    induction l with
    | nil => rfl
    | cons s rest ih => simp [List.any_cons, ih]
  refine ⟨by simp [evalStatement, evalStatements], by simp [evalStatement, evalStatements], ?_, ?_⟩
  · rw [hAND, all_map_id]
    simp only [Except.ok.injEq, List.all_eq_true]
    constructor
    · intro hall s hs
      obtain ⟨b, hb⟩ := h s hs
      have hsd : stmtDecision ctx s = b := by simp [stmtDecision, hb]
      have hbt := hall s hs
      rw [hsd] at hbt
      rw [hb, hbt]
    · intro hall s hs
      have hb := hall s hs
      simp [stmtDecision, hb]
  · rw [hOR, any_map_id]
    simp only [Except.ok.injEq, List.any_eq_true]
    constructor
    · rintro ⟨s, hs, hsd⟩
      obtain ⟨b, hb⟩ := h s hs
      have hsb : stmtDecision ctx s = b := by simp [stmtDecision, hb]
      rw [hsb] at hsd
      exact ⟨s, hs, by rw [hb, hsd]⟩
    · rintro ⟨s, hs, hb⟩
      exact ⟨s, hs, by simp [stmtDecision, hb]⟩

/-- Witness for C6 at a concrete context and a one-child list (the child
itself the vacuously true empty AND group). -/
theorem statement_group_truth_table_witness :
    evalStatement (.group .AND []) demoGlobals = .ok true ∧
    evalStatement (.group .OR []) demoGlobals = .ok false ∧
    (evalStatement (.group .AND [.group .AND []]) demoGlobals = .ok true ↔
      ∀ s ∈ [Statement.group .AND []], evalStatement s demoGlobals = .ok true) ∧
    (evalStatement (.group .OR [.group .AND []]) demoGlobals = .ok true ↔
      ∃ s ∈ [Statement.group .AND []], evalStatement s demoGlobals = .ok true) :=
  statement_group_truth_table demoGlobals [.group .AND []]
    (by
      intro s hs
      simp only [List.mem_singleton] at hs
      subst hs
      exact ⟨true, by simp [evalStatement, evalStatements]⟩)

/-- C7: when the compiled statement references an operand name that the
global context does not supply, the filter call fails with an error — the
first element's evaluation already raises, and the result of the call is that
error, not a partial mask or collection; and in general, whenever any
element's evaluation fails, `filter_detections` returns an error and no
partial result. -/
theorem missing_operand_no_partial_result (S : Statement) (n : String) (g : Ctx)
    (ds : List Detection)
    (h₁ : statementMentions n S = true)
    (h₂ : ctxLookup n g = none)
    (h₃ : n ≠ DEFAULT_OPERAND_NAME)
    (h₄ : ds ≠ []) :
    (∃ e, filter_detections (.detections ds) (evalStatement S) g = .error e) ∧
    ∀ (f : Ctx → Except QLError Bool) (d : Detection) (e₀ : QLError),
      d ∈ ds → evalPred f g d = .error e₀ →
      ∃ e, filter_detections (.detections ds) f g = .error e := by
  constructor
  · obtain ⟨d, rest, rfl⟩ := List.exists_cons_of_ne_nil h₄
    have hmiss : ctxLookup n (ctxSet DEFAULT_OPERAND_NAME (.det d) (dictCopy g)) = none := by
      rw [show dictCopy g = g from rfl, ctxLookup_ctxSet_ne _ _ _ _ h₃]
      exact h₂
    obtain ⟨e, he⟩ := evalStatement_missing_name n S _ h₁ hmiss
    obtain ⟨e₀, he₀⟩ :=
      maskSpec_error_of_mem (evalStatement S) g (d :: rest) d (by simp) e he
    exact ⟨e₀, by rw [filter_detections_eq_maskSpec, he₀]⟩
  · intro f d e₀ hd he
    obtain ⟨e, hee⟩ := maskSpec_error_of_mem f g ds d hd e₀ he
    exact ⟨e, by rw [filter_detections_eq_maskSpec, hee]⟩

/-- Witness for C7: a statement comparing a missing name against a supplied
one errors out the whole filter call over a nonempty collection. -/
theorem missing_operand_no_partial_result_witness :
    (∃ e, filter_detections (.detections [personDetection, carDetection])
        (evalStatement (.binary ⟨"missing", []⟩ .valueEqual ⟨"classes", []⟩))
        demoGlobals = .error e) ∧
    ∀ (f : Ctx → Except QLError Bool) (d : Detection) (e₀ : QLError),
      d ∈ [personDetection, carDetection] →
      evalPred f demoGlobals d = .error e₀ →
      ∃ e, filter_detections (.detections [personDetection, carDetection]) f demoGlobals =
        .error e :=
  missing_operand_no_partial_result (.binary ⟨"missing", []⟩ .valueEqual ⟨"classes", []⟩)
    "missing" demoGlobals [personDetection, carDetection]
    (by simp [statementMentions]) (by decide) (by decide) (by simp)

/-- C8: in the mask-derived extraction of the SAM response conversion, a
polygon containing no points makes the `np.min` reduction over the empty
coordinate sequence raise, so the conversion yields an error — never a
guessed default prediction — while every polygon with at least one point
converts successfully. -/
theorem empty_polygon_mask_extraction_error (class_name : String) (class_id : ℤ) :
    convertPolygonToPrediction [] class_name class_id =
      .error (.valueError "zero-size array to reduction operation minimum which has no identity") ∧
    ∀ (pt : Point) (pts : List Point),
      ∃ pred, convertPolygonToPrediction (pt :: pts) class_name class_id = .ok pred := by
  refine ⟨rfl, ?_⟩
  intro pt pts
  exact ⟨{ x := (((pts.map Point.x).foldl min pt.x) + ((pts.map Point.x).foldl max pt.x)) / 2,
           y := (((pts.map Point.y).foldl min pt.y) + ((pts.map Point.y).foldl max pt.y)) / 2,
           width := ((pts.map Point.x).foldl max pt.x) - ((pts.map Point.x).foldl min pt.x),
           height := ((pts.map Point.y).foldl max pt.y) - ((pts.map Point.y).foldl min pt.y),
           points := pt :: pts, confidence := 1 / 2,
           class_name := class_name, class_id := class_id }, rfl⟩

theorem lookupExtractor_eq_none (q : String)
    (l : List (String × (List Detection → List Value))) (hq : q ∉ l.map Prod.fst) :
    lookupExtractor q l = none := by
  induction l with
  | nil => rfl
  | cons hd tl ih =>
      obtain ⟨k, f⟩ := hd
      simp only [List.map_cons, List.mem_cons] at hq
      push_neg at hq
      have hk : ¬k = q := fun hkq => hq.1 hkq.symm
      simp [lookupExtractor, hk, ih hq.2]

/-- C10: the extractor registry lookup happens at evaluation time, after the
collection type check.  For every registered property name the lookup
succeeds and the extractor returns one value per detection, index-aligned
(the result is a pointwise map over the collection); for a name outside the
registered set the lookup fails with a raw key-lookup error, which is a
different error constructor from `InvalidInputTypeError`; and with a
non-collection argument the type check fires first, so even an unregistered
name yields `InvalidInputTypeError`, not a key error. -/
theorem extract_detections_property_lookup (ds : List Detection)
    (p q execution_context : String) (v : Value)
    (hp : p ∈ PROPERTIES_EXTRACTORS.map Prod.fst)
    (hq : q ∉ PROPERTIES_EXTRACTORS.map Prod.fst)
    (hv : ∀ ds₀, v ≠ Value.detections ds₀) :
    (∃ fd : Detection → Value,
        extract_detections_property (.detections ds) p execution_context =
          .ok (ds.map fd)) ∧
    extract_detections_property (.detections ds) q execution_context =
      .error (.keyError q) ∧
    (∀ r t c, (QLError.keyError q) ≠ .invalidInputType r t c) ∧
    extract_detections_property v q execution_context =
      .error (.invalidInputType (safe_stringify v) (observedType v)
        ("step_execution | roboflow_query_language_evaluation | " ++ execution_context)) := by
  refine ⟨?_, ?_, fun r t c hc => QLError.noConfusion hc, ?_⟩
  · simp only [PROPERTIES_EXTRACTORS, List.map_cons, List.map_nil, List.mem_cons,
      List.not_mem_nil, or_false] at hp
    rcases hp with h | h | h | h | h | h | h | h
    · exact ⟨fun d => .num d.confidence, by subst h; rfl⟩
    · exact ⟨fun d => .str d.class_name, by subst h; rfl⟩
    · exact ⟨fun d => .num d.box.x_min, by subst h; rfl⟩
    · exact ⟨fun d => .num d.box.y_min, by subst h; rfl⟩
    · exact ⟨fun d => .num d.box.x_max, by subst h; rfl⟩
    · exact ⟨fun d => .num d.box.y_max, by subst h; rfl⟩
    · exact ⟨fun d => .num (d.class_id : ℚ), by subst h; rfl⟩
    · exact ⟨fun d => .num d.box_area, by subst h; rfl⟩
  · simp [extract_detections_property, lookupExtractor_eq_none q _ hq]
  · cases v with
    | detections ds₀ => exact absurd rfl (hv ds₀)
    | num a => rfl
    | str a => rfl
    | strSet a => rfl
    | image a b => rfl
    | det a => rfl

/-- Witness for C10 at the registered name "confidence", the unregistered
name "center", and the plain number 5. -/
theorem extract_detections_property_lookup_witness :
    (∃ fd : Detection → Value,
        extract_detections_property (.detections [personDetection]) "confidence" "demo" =
          .ok ([personDetection].map fd)) ∧
    extract_detections_property (.detections [personDetection]) "center" "demo" =
      .error (.keyError "center") ∧
    (∀ r t c, (QLError.keyError "center") ≠ .invalidInputType r t c) ∧
    extract_detections_property (.num 5) "center" "demo" =
      .error (.invalidInputType (safe_stringify (.num 5)) (observedType (.num 5))
        ("step_execution | roboflow_query_language_evaluation | " ++ "demo")) :=
  extract_detections_property_lookup [personDetection] "confidence" "center" "demo" (.num 5)
    (by simp [PROPERTIES_EXTRACTORS]) (by simp [PROPERTIES_EXTRACTORS])
    (fun ds₀ hc => Value.noConfusion hc)

end Inference
